import Mathlib

/-!
Shallow embedding of the book repository of alura-node-express-mongo
(src/adapters/repositories/book.ts and errors.ts), verifying the
transactional dual-reference consistency logic between books and authors.

Ids are strings, as in the source. Mongo collections are modelled as
association lists; a Mongo array field is a Lean list (so a books array
may hold duplicate entries, matching the `$push` primitive). A
transaction-scoped session is modelled explicitly: writes carrying the
session accumulate in a pending-operation list applied to the committed
world at commit, while writes that omit the session mutate the committed
world immediately. An event trace records every author fetch, every
write (with the flag saying whether the session was passed), commit,
abort, and session release, so that claims about session scoping and
operation ordering are statable.
-/

namespace AluraBooks

abbrev Id := String

/-- Modelled from the spec: the Author schema (src/adapters/models is not in
the sources). Identity is the association-list key; scalar field name;
books is the reverse-reference array (a Mongo array, so a list). -/
structure Author where
  name : String
  books : List Id
deriving DecidableEq

/-- Modelled from the spec: the Book schema (src/adapters/models is not in
the sources). Identity is the association-list key; authors is the ordered
list of author ids declared on the book side. -/
structure Book where
  title : String
  description : Option String
  price : Option Nat
  numberOfPages : Option Nat
  authors : List Id
deriving DecidableEq

/-- The committed database: the two collections, as association lists from
document id to document. -/
structure DB where
  books : List (Id × Book)
  authors : List (Id × Author)
deriving DecidableEq

def DB.findBook (db : DB) (id : Id) : Option Book :=
  (db.books.find? (fun p => p.1 == id)).map Prod.snd

def DB.findAuthor (db : DB) (id : Id) : Option Author :=
  (db.authors.find? (fun p => p.1 == id)).map Prod.snd

/-- IBookAuthorObject from the domain interface: the (id, name) author
summary embedded in a read book. -/
structure BookAuthorObject where
  id : Id
  name : String
deriving DecidableEq

/-- ICreateBook: the payload of create and replace. -/
structure ICreateBook where
  title : String
  description : Option String := none
  price : Option Nat := none
  numberOfPages : Option Nat := none
  authors : Option (List Id) := none
deriving DecidableEq

/-- IUpdateBook: the partial payload of update; every field optional. -/
structure IUpdateBook where
  title : Option String := none
  description : Option String := none
  price : Option Nat := none
  numberOfPages : Option Nat := none
  authors : Option (List Id) := none
deriving DecidableEq

/-- IReadBook: the externally visible read model. -/
structure ReadBook where
  id : Id
  title : String
  description : Option String
  price : Option Nat
  numberOfPages : Option Nat
  authors : List BookAuthorObject
deriving DecidableEq

/-- The normalized error taxonomy of errors.ts: ValidationError carries a
field-path-to-message mapping, NotFoundError carries resourceName and id,
RepositoryError is the catch-all. -/
inductive RepoError where
  | validation (errors : List (String × String))
  | notFound (resourceName : String) (id : Id)
  | repository (message : String)
deriving DecidableEq

/-- Modelled from the spec: the Error Adapter (src/adapters is missing its
database adapter) maps raw storage failures to RepositoryError and passes
already-normalized kinds through unchanged. In this model every primitive
already raises a normalized kind, so adaptation is the identity. -/
def adaptError (e : RepoError) : RepoError := e

/-- Mongoose document construction: new BookModel(data). An absent authors
field defaults to the empty array (Mongoose array-path default; modelled
from the spec, the schema file being absent from the sources). -/
def bookFromCreate (data : ICreateBook) : Book :=
  { title := data.title
    description := data.description
    price := data.price
    numberOfPages := data.numberOfPages
    authors := data.authors.getD [] }

/-- findByIdAndUpdate with a plain payload: set exactly the provided
fields, keep the rest. -/
def applyUpdate (b : Book) (d : IUpdateBook) : Book :=
  { title := d.title.getD b.title
    description := d.description.orElse (fun _ => b.description)
    price := d.price.orElse (fun _ => b.price)
    numberOfPages := d.numberOfPages.orElse (fun _ => b.numberOfPages)
    authors := d.authors.getD b.authors }

/-- Mongo $push on an array field: append, regardless of membership. -/
def pushBookToAuthor (bookId : Id) (a : Author) : Author :=
  { a with books := a.books ++ [bookId] }

/-- Mongo $pull on an array field: remove every occurrence. -/
def pullBookFromAuthor (bookId : Id) (a : Author) : Author :=
  { a with books := a.books.filter (fun b => b != bookId) }

/-- The write primitives the repository issues against the storage layer. -/
inductive WriteOp where
  | insertBook (id : Id) (b : Book)
  | replaceBook (id : Id) (b : Book)
  | patchBook (id : Id) (d : IUpdateBook)
  | deleteBook (id : Id)
  | pushBooks (authorIds : List Id) (bookId : Id)
  | pullBooks (authorIds : List Id) (bookId : Id)
deriving DecidableEq

/-- updateMany over the authors collection: transform every author whose
id is in the filter set. -/
def DB.updateManyAuthors (db : DB) (ids : List Id) (f : Author → Author) : DB :=
  { db with authors := db.authors.map (fun p => if p.1 ∈ ids then (p.1, f p.2) else p) }

/-- Effect of one write primitive on a database. replaceBook has upsert
semantics (findOneAndReplace with upsert true); deleteBook removes the
document; push and pull are the Mongo array-update primitives. -/
def applyOp : WriteOp → DB → DB
  | .insertBook id b, db => { db with books := db.books ++ [(id, b)] }
  | .replaceBook id b, db =>
      if (db.books.find? (fun p => p.1 == id)).isSome then
        { db with books := db.books.map (fun p => if p.1 == id then (id, b) else p) }
      else
        { db with books := db.books ++ [(id, b)] }
  | .patchBook id d, db =>
      { db with books := db.books.map (fun p => if p.1 == id then (id, applyUpdate p.2 d) else p) }
  | .deleteBook id, db => { db with books := db.books.filter (fun p => p.1 != id) }
  | .pushBooks ids bid, db => db.updateManyAuthors ids (pushBookToAuthor bid)
  | .pullBooks ids bid, db => db.updateManyAuthors ids (pullBookFromAuthor bid)

def applyOps (ops : List WriteOp) (db : DB) : DB :=
  ops.foldl (fun d o => applyOp o d) db

/-- Observable events of one repository operation. Every write event
records whether the call passed the transaction session. -/
inductive Event where
  | fetchAuthors (ids : List Id) (useSession : Bool)
  | write (op : WriteOp) (useSession : Bool)
  | commit
  | abort
  | endSession
deriving DecidableEq

/-- The open transaction: the snapshot taken at startTransaction, and the
writes staged through the session, applied to the world at commit. -/
structure Txn where
  snapshot : DB
  ops : List WriteOp
deriving DecidableEq

/-- Execution state of one repository operation: the committed world, the
open transaction, and the event trace. -/
structure Exec where
  world : DB
  txn : Txn
  events : List Event
deriving DecidableEq

/-- startSession followed by startTransaction. -/
def initExec (w : DB) : Exec :=
  { world := w, txn := { snapshot := w, ops := [] }, events := [] }

/-- A read: through the session it sees the transaction snapshot plus the
transaction's own staged writes; without the session it sees the
committed world. -/
def Exec.readDB (st : Exec) (useSession : Bool) : DB :=
  if useSession then applyOps st.txn.ops st.txn.snapshot else st.world

/-- A write: through the session it is staged on the transaction; without
the session it hits the committed world immediately. -/
def writeOp (op : WriteOp) (useSession : Bool) (st : Exec) : Exec :=
  if useSession then
    { st with txn := { st.txn with ops := st.txn.ops ++ [op] }
              events := st.events ++ [.write op useSession] }
  else
    { st with world := applyOp op st.world
              events := st.events ++ [.write op useSession] }

/-- commitTransaction: apply the staged writes to the committed world. -/
def commitTxn (st : Exec) : Exec :=
  { st with world := applyOps st.txn.ops st.world
            txn := { st.txn with ops := [] }
            events := st.events ++ [.commit] }

/-- abortTransaction: discard the staged writes. -/
def abortTxn (st : Exec) : Exec :=
  { st with txn := { st.txn with ops := [] }
            events := st.events ++ [.abort] }

/-- endSession: release the session (recorded in the trace). -/
def endSessionStep (st : Exec) : Exec :=
  { st with events := st.events ++ [.endSession] }

/-- Fault injection: which storage primitive fails during the run. -/
structure Fault where
  failFind : Bool := false
  failSave : Bool := false
  failPush : Bool := false
  failPull : Bool := false
deriving DecidableEq

def noFault : Fault := {}

instance {ε α : Type} [DecidableEq ε] [DecidableEq α] : DecidableEq (Except ε α) := fun x y =>
  match x, y with
  | .ok a, .ok b =>
      if h : a = b then .isTrue (by rw [h]) else .isFalse (by intro hh; cases hh; exact h rfl)
  | .error a, .error b =>
      if h : a = b then .isTrue (by rw [h]) else .isFalse (by intro hh; cases hh; exact h rfl)
  | .ok _, .error _ => .isFalse (by intro hh; cases hh)
  | .error _, .ok _ => .isFalse (by intro hh; cases hh)

/-- Outcome of one repository operation: the returned value or error, the
committed world afterwards, and the event trace. -/
structure RunResult (α : Type) where
  result : Except RepoError α
  world : DB
  trace : List Event
deriving DecidableEq

/-- The try/catch/finally skeleton shared by every mutating operation:
run the body (which commits on success); on failure abort and adapt the
error; in all cases end the session. -/
def runWithSession {α : Type} (body : Exec → Except RepoError α × Exec) (world : DB) :
    RunResult α :=
  match body (initExec world) with
  | (.ok a, st) =>
      let st1 := endSessionStep st
      { result := .ok a, world := st1.world, trace := st1.events }
  | (.error e, st) =>
      let st1 := endSessionStep (abortTxn st)
      { result := .error (adaptError e), world := st1.world, trace := st1.events }

/-- The author documents matched by find with an $in filter over the ids,
projected to (id, name) summaries, in collection order. -/
def findBookAuthorsPure (db : DB) (ids : List Id) : List BookAuthorObject :=
  (db.authors.filter (fun p => p.1 ∈ ids)).map (fun p => { id := p.1, name := p.2.name })

/-- findBookAuthors: return the empty list when authorsIds is absent
(JavaScript: an empty array is truthy, so only undefined short-circuits);
otherwise fetch the matching author documents. -/
def findBookAuthors (authorsIds : Option (List Id)) (useSession : Bool) (fault : Fault)
    (st : Exec) : Except RepoError (List BookAuthorObject) × Exec :=
  match authorsIds with
  | none => (.ok [], st)
  | some ids =>
      let st1 := { st with events := st.events ++ [.fetchAuthors ids useSession] }
      if fault.failFind then (.error (.repository "find authors failed"), st1)
      else (.ok (findBookAuthorsPure (st.readDB useSession) ids), st1)

/-- validateBookAuthors: absent input returns the empty list at once;
otherwise check duplicates via set cardinality, fetch the matching
authors, and fail when duplicates exist or some id matched no record. -/
def validateBookAuthors (authorsIds : Option (List Id)) (useSession : Bool) (fault : Fault)
    (st : Exec) : Except RepoError (List BookAuthorObject) × Exec :=
  match authorsIds with
  | none => (.ok [], st)
  | some ids =>
      let hasDuplicates := ids.length ≠ ids.dedup.length
      match findBookAuthors (some ids) useSession fault st with
      | (.error e, st1) => (.error e, st1)
      | (.ok foundBookAuthors, st1) =>
          let foundBookAuthorsIds := foundBookAuthors.map (fun a => a.id)
          if hasDuplicates ∨ ids.length ≠ foundBookAuthorsIds.length then
            (.error (.validation [("author", "Authors list contains invalid ids")]), st1)
          else
            (.ok foundBookAuthors, st1)

/-- addBookToAuthors: no-op when bookId or newAuthorsIds is absent;
otherwise one updateMany with a $push of the book id. -/
def addBookToAuthors (bookId : Option Id) (newAuthorsIds : Option (List Id)) (useSession : Bool)
    (fault : Fault) (st : Exec) : Except RepoError Unit × Exec :=
  match bookId, newAuthorsIds with
  | some bid, some ids =>
      if fault.failPush then (.error (.repository "updateMany push failed"), st)
      else (.ok (), writeOp (.pushBooks ids bid) useSession st)
  | _, _ => (.ok (), st)

/-- removeBookFromAuthors: no-op when oldAuthorsIds is absent; otherwise
one updateMany with a $pull of the book id. -/
def removeBookFromAuthors (bookId : Id) (oldAuthorsIds : Option (List Id)) (useSession : Bool)
    (fault : Fault) (st : Exec) : Except RepoError Unit × Exec :=
  match oldAuthorsIds with
  | none => (.ok (), st)
  | some ids =>
      if fault.failPull then (.error (.repository "updateMany pull failed"), st)
      else (.ok (), writeOp (.pullBooks ids bookId) useSession st)

/-- updateBookAuthors: remove the book id from every old author, then add
it to every new author. -/
def updateBookAuthors (bookId : Id) (newAuthorsIds oldAuthorsIds : Option (List Id))
    (useSession : Bool) (fault : Fault) (st : Exec) : Except RepoError Unit × Exec :=
  match removeBookFromAuthors bookId oldAuthorsIds useSession fault st with
  | (.error e, st1) => (.error e, st1)
  | (.ok _, st1) => addBookToAuthors (some bookId) newAuthorsIds useSession fault st1

/-- documentToBook: build the read model. In JavaScript the cached list is
used whenever it is defined, because any array, even the empty one, is
truthy under the logical-or fallback; only an absent cache falls back to
the populated author documents. -/
def documentToBook (docId : Id) (document : Book) (populatedAuthors : List BookAuthorObject)
    (cachedAuthors : Option (List BookAuthorObject)) : ReadBook :=
  let authors := match cachedAuthors with
    | some cached => cached
    | none => populatedAuthors
  { id := docId
    title := document.title
    description := document.description
    price := document.price
    numberOfPages := document.numberOfPages
    authors := authors }

/-- Body of create (inside the try block): validate the authors, save the
new document through the session, push the book id to its authors through
the session, commit, and build the read model from the cached summaries. -/
def createBody (newId : Id) (data : ICreateBook) (fault : Fault) (st : Exec) :
    Except RepoError ReadBook × Exec :=
  match validateBookAuthors data.authors true fault st with
  | (.error e, st1) => (.error e, st1)
  | (.ok bookAuthors, st1) =>
      let document := bookFromCreate data
      if fault.failSave then (.error (.repository "save failed"), st1)
      else
        let st2 := writeOp (.insertBook newId document) true st1
        match addBookToAuthors (some newId) (some document.authors) true fault st2 with
        | (.error e, st3) => (.error e, st3)
        | (.ok _, st3) =>
            let st4 := commitTxn st3
            (.ok (documentToBook newId document [] (some bookAuthors)), st4)

/-- Body of replace: validate, read the old authors through the session,
findOneAndReplace with upsert through the session, then synchronize the
author references. The source omits the session argument on the
updateBookAuthors call (book.ts line 90), so the author-side bulk updates
run outside the transaction: useSession is false there. -/
def replaceBody (id : Id) (data : ICreateBook) (fault : Fault) (st : Exec) :
    Except RepoError ReadBook × Exec :=
  match validateBookAuthors data.authors true fault st with
  | (.error e, st1) => (.error e, st1)
  | (.ok bookAuthors, st1) =>
      let oldDocument := (st1.readDB true).findBook id
      if fault.failSave then (.error (.repository "findOneAndReplace failed"), st1)
      else
        let updatedDocument := bookFromCreate data
        let st2 := writeOp (.replaceBook id updatedDocument) true st1
        match updateBookAuthors id (some updatedDocument.authors)
            (oldDocument.map (fun b => b.authors)) false fault st2 with
        | (.error e, st3) => (.error e, st3)
        | (.ok _, st3) =>
            let st4 := commitTxn st3
            (.ok (documentToBook id updatedDocument [] (some bookAuthors)), st4)

/-- Body of update: read the old document through the session (not found
aborts here), validate, findByIdAndUpdate through the session, then
synchronize the author references through the session. -/
def updateBody (id : Id) (data : IUpdateBook) (fault : Fault) (st : Exec) :
    Except RepoError ReadBook × Exec :=
  match (st.readDB true).findBook id with
  | none => (.error (.notFound "Book" id), st)
  | some oldDocument =>
      match validateBookAuthors data.authors true fault st with
      | (.error e, st1) => (.error e, st1)
      | (.ok bookAuthors, st1) =>
          if fault.failSave then (.error (.repository "findByIdAndUpdate failed"), st1)
          else
            let updatedDocument := applyUpdate oldDocument data
            let st2 := writeOp (.patchBook id data) true st1
            match updateBookAuthors id (some updatedDocument.authors)
                (some oldDocument.authors) true fault st2 with
            | (.error e, st3) => (.error e, st3)
            | (.ok _, st3) =>
                let st4 := commitTxn st3
                (.ok (documentToBook id updatedDocument [] (some bookAuthors)), st4)

/-- Body of delete: findByIdAndDelete through the session (not found
aborts, nothing deleted), then pull the book id from every listed author
through the session. -/
def deleteBody (id : Id) (fault : Fault) (st : Exec) : Except RepoError Unit × Exec :=
  match (st.readDB true).findBook id with
  | none => (.error (.notFound "Book" id), st)
  | some oldDocument =>
      let st1 := writeOp (.deleteBook id) true st
      match removeBookFromAuthors id (some oldDocument.authors) true fault st1 with
      | (.error e, st2) => (.error e, st2)
      | (.ok _, st2) => (.ok (), commitTxn st2)

namespace BookRepository

/-- BookRepository.create: newId models the fresh _id Mongoose assigns to
the new document. -/
def create (newId : Id) (data : ICreateBook) (fault : Fault) (world : DB) :
    RunResult ReadBook :=
  runWithSession (createBody newId data fault) world

def replace (id : Id) (data : ICreateBook) (fault : Fault) (world : DB) :
    RunResult ReadBook :=
  runWithSession (replaceBody id data fault) world

def update (id : Id) (data : IUpdateBook) (fault : Fault) (world : DB) :
    RunResult ReadBook :=
  runWithSession (updateBody id data fault) world

def delete (id : Id) (fault : Fault) (world : DB) : RunResult Unit :=
  runWithSession (deleteBody id fault) world

end BookRepository

/-! Concrete fixtures used by counterexamples and witnesses: three authors
and one book titled Dune written by A1 and A2, mirroring the scenario of
the spec's testable properties. -/

def authorOne : Author := { name := "One", books := ["B"] }

def authorTwo : Author := { name := "Two", books := ["B"] }

def authorThree : Author := { name := "Three", books := [] }

def bookDune : Book :=
  { title := "Dune", description := none, price := none, numberOfPages := none
    authors := ["A1", "A2"] }

def W1 : DB :=
  { books := [("B", bookDune)]
    authors := [("A1", authorOne), ("A2", authorTwo), ("A3", authorThree)] }

/-- The replacement payload of the spec's delta example: authors A2, A3. -/
def dataC1 : ICreateBook := { title := "Dune", authors := some ["A2", "A3"] }

/-- The same author change as dataC1, as a partial update payload. -/
def updC1 : IUpdateBook := { authors := some ["A2", "A3"] }

/-- A create payload with a duplicated author id. -/
def dataDup : ICreateBook := { title := "X", authors := some ["A1", "A1"] }

/-- The keys of the field-error mapping of a validation failure. -/
def validationKeys {α : Type} : Except RepoError α → List String
  | .error (.validation errors) => errors.map Prod.fst
  | _ => []

/-- How many endSession events a trace holds. -/
def endCount : List Event → Nat
  | [] => 0
  | .endSession :: es => endCount es + 1
  | _ :: es => endCount es

/-- The validator's success condition on an author-id list: no duplicates
(set cardinality equals length) and every id matched a fetched record. -/
def authorsOk (db : DB) : Option (List Id) → Prop
  | none => True
  | some ids =>
      ids.length = ids.dedup.length ∧
      ids.length = ((findBookAuthorsPure db ids).map (fun a => a.id)).length

instance (db : DB) (o : Option (List Id)) : Decidable (authorsOk db o) :=
  match o with
  | none => .isTrue trivial
  | some _ => inferInstanceAs (Decidable (_ ∧ _))

/-! General lemmas about the model. -/

theorem applyOps_nil (db : DB) : applyOps [] db = db := rfl

theorem initExec_readDB (w : DB) (s : Bool) : (initExec w).readDB s = w := by
  cases s <;> rfl

theorem find?_map_keyFixed {β : Type} (l : List (Id × β)) (g : Id × β → Id × β)
    (hg : ∀ p, (g p).1 = p.1) (a : Id) :
    (l.map g).find? (fun p => p.1 == a) = (l.find? (fun p => p.1 == a)).map g := by
  induction l with
  | nil => rfl
  | cons p l ih =>
      by_cases h : p.1 == a
      · have h2 : ((g p).1 == a) = true := by rw [hg p]; exact h
        simp [List.find?_cons, h, h2]
      · have h2 : ((g p).1 == a) = false := by rw [hg p]; simpa using h
        simp [List.find?_cons, h, h2, ih]

theorem findAuthor_updateMany (db : DB) (ids : List Id) (f : Author → Author) (a : Id) :
    (db.updateManyAuthors ids f).findAuthor a =
      (db.findAuthor a).map (fun A => if a ∈ ids then f A else A) := by
  unfold DB.updateManyAuthors DB.findAuthor
  rw [find?_map_keyFixed _ _ (fun p => by by_cases hp : p.1 ∈ ids <;> simp [hp])]
  cases h : db.authors.find? (fun p => p.1 == a) with
  | none => rfl
  | some p =>
      have hpa : p.1 = a := by
        have := List.find?_some h
        simpa using this
      subst hpa
      by_cases hp : p.1 ∈ ids <;> simp [hp]

theorem findAuthor_insertBook (db : DB) (a id : Id) (b : Book) :
    (applyOp (.insertBook id b) db).findAuthor a = db.findAuthor a := rfl

theorem findAuthor_replaceBook (db : DB) (a id : Id) (b : Book) :
    (applyOp (.replaceBook id b) db).findAuthor a = db.findAuthor a := by
  simp only [applyOp]
  split <;> rfl

theorem findAuthor_patchBook (db : DB) (a id : Id) (d : IUpdateBook) :
    (applyOp (.patchBook id d) db).findAuthor a = db.findAuthor a := rfl

theorem findAuthor_deleteBook (db : DB) (a id : Id) :
    (applyOp (.deleteBook id) db).findAuthor a = db.findAuthor a := rfl

theorem findBook_applyOp_authorOp (db : DB) (id : Id) (ids : List Id) (bid : Id) :
    (applyOp (.pushBooks ids bid) db).findBook id = db.findBook id ∧
    (applyOp (.pullBooks ids bid) db).findBook id = db.findBook id :=
  ⟨rfl, rfl⟩

theorem findBook_replace_of_none (db : DB) (id : Id) (b : Book)
    (h : db.findBook id = none) :
    (applyOp (.replaceBook id b) db).findBook id = some b := by
  have hfind : db.books.find? (fun p => p.1 == id) = none := by
    unfold DB.findBook at h
    exact Option.map_eq_none'.mp h
  simp only [applyOp]
  rw [if_neg (by rw [hfind]; simp)]
  unfold DB.findBook
  rw [List.find?_append, hfind]
  simp

theorem findBook_patch (db : DB) (id : Id) (d : IUpdateBook) :
    (applyOp (.patchBook id d) db).findBook id =
      (db.findBook id).map (fun b => applyUpdate b d) := by
  simp only [applyOp]
  unfold DB.findBook
  have hg : ∀ p : Id × Book, ((if p.1 == id then (id, applyUpdate p.2 d) else p) : Id × Book).1 = p.1 := by
    intro p
    by_cases hp : p.1 == id
    · rw [if_pos hp]
      exact (beq_iff_eq.mp hp).symm
    · rw [if_neg hp]
  rw [find?_map_keyFixed _ _ hg]
  cases h : db.books.find? (fun p => p.1 == id) with
  | none => rfl
  | some p =>
      have hpa : p.1 = id := by
        have := List.find?_some h
        simpa using this
      simp [hpa]

theorem endCount_append (l1 l2 : List Event) :
    endCount (l1 ++ l2) = endCount l1 + endCount l2 := by
  induction l1 with
  | nil =>
      rw [List.nil_append]
      show endCount l2 = 0 + endCount l2
      omega
  | cons e es ih =>
      cases e with
      | endSession =>
          rw [List.cons_append]
          show endCount (es ++ l2) + 1 = endCount es + 1 + endCount l2
          rw [ih]
          omega
      | fetchAuthors i s =>
          rw [List.cons_append]
          exact ih
      | write op s =>
          rw [List.cons_append]
          exact ih
      | commit =>
          rw [List.cons_append]
          exact ih
      | abort =>
          rw [List.cons_append]
          exact ih

theorem endCount_writeOp (op : WriteOp) (s : Bool) (st : Exec) :
    endCount (writeOp op s st).events = endCount st.events := by
  cases s
  · show endCount (st.events ++ [Event.write op false]) = endCount st.events
    rw [endCount_append]
    rfl
  · show endCount (st.events ++ [Event.write op true]) = endCount st.events
    rw [endCount_append]
    rfl

theorem endCount_commitTxn (st : Exec) :
    endCount (commitTxn st).events = endCount st.events := by
  show endCount (st.events ++ [Event.commit]) = endCount st.events
  rw [endCount_append]
  rfl

theorem endCount_findBookAuthors (o : Option (List Id)) (s : Bool) (f : Fault) (st : Exec) :
    endCount (findBookAuthors o s f st).2.events = endCount st.events := by
  cases o with
  | none => rfl
  | some ids =>
      simp only [findBookAuthors]
      split
      all_goals
        show endCount (st.events ++ [Event.fetchAuthors ids s]) = endCount st.events
      all_goals
        rw [endCount_append]
      all_goals rfl

theorem endCount_validateBookAuthors (o : Option (List Id)) (s : Bool) (f : Fault) (st : Exec) :
    endCount (validateBookAuthors o s f st).2.events = endCount st.events := by
  cases o with
  | none => rfl
  | some ids =>
      have h1 := endCount_findBookAuthors (some ids) s f st
      simp only [validateBookAuthors]
      rcases hf : findBookAuthors (some ids) s f st with ⟨r, st1⟩
      rw [hf] at h1
      cases r with
      | error e => simpa using h1
      | ok found =>
          simp only []
          split <;> simpa using h1

theorem endCount_addBookToAuthors (bookId : Option Id) (ids : Option (List Id)) (s : Bool)
    (f : Fault) (st : Exec) :
    endCount (addBookToAuthors bookId ids s f st).2.events = endCount st.events := by
  cases bookId with
  | none => cases ids <;> rfl
  | some bid =>
      cases ids with
      | none => rfl
      | some l =>
          simp only [addBookToAuthors]
          split
          · rfl
          · simp [endCount_writeOp]

theorem endCount_removeBookFromAuthors (bookId : Id) (ids : Option (List Id)) (s : Bool)
    (f : Fault) (st : Exec) :
    endCount (removeBookFromAuthors bookId ids s f st).2.events = endCount st.events := by
  cases ids with
  | none => rfl
  | some l =>
      simp only [removeBookFromAuthors]
      split
      · rfl
      · simp [endCount_writeOp]

theorem endCount_updateBookAuthors (bookId : Id) (newIds oldIds : Option (List Id)) (s : Bool)
    (f : Fault) (st : Exec) :
    endCount (updateBookAuthors bookId newIds oldIds s f st).2.events = endCount st.events := by
  have h1 := endCount_removeBookFromAuthors bookId oldIds s f st
  simp only [updateBookAuthors]
  rcases hr : removeBookFromAuthors bookId oldIds s f st with ⟨r, st1⟩
  rw [hr] at h1
  cases r with
  | error e => simpa using h1
  | ok u =>
      have h2 := endCount_addBookToAuthors (some bookId) newIds s f st1
      simp only []
      rw [h2]
      simpa using h1

theorem endCount_createBody (newId : Id) (data : ICreateBook) (f : Fault) (st : Exec) :
    endCount (createBody newId data f st).2.events = endCount st.events := by
  have h1 := endCount_validateBookAuthors data.authors true f st
  simp only [createBody]
  rcases hv : validateBookAuthors data.authors true f st with ⟨r, st1⟩
  rw [hv] at h1
  cases r with
  | error e => simpa using h1
  | ok ba =>
      simp only []
      split
      · simpa using h1
      · rcases ha : addBookToAuthors (some newId) (some (bookFromCreate data).authors) true f
            (writeOp (.insertBook newId (bookFromCreate data)) true st1) with ⟨r2, st3⟩
        have h2 := endCount_addBookToAuthors (some newId) (some (bookFromCreate data).authors)
          true f (writeOp (.insertBook newId (bookFromCreate data)) true st1)
        rw [ha] at h2
        rw [endCount_writeOp] at h2
        cases r2 with
        | error e => simp only [ha]; rw [h2]; simpa using h1
        | ok u =>
            simp only [ha, endCount_commitTxn]
            rw [h2]
            simpa using h1

theorem endCount_replaceBody (id : Id) (data : ICreateBook) (f : Fault) (st : Exec) :
    endCount (replaceBody id data f st).2.events = endCount st.events := by
  have h1 := endCount_validateBookAuthors data.authors true f st
  simp only [replaceBody]
  rcases hv : validateBookAuthors data.authors true f st with ⟨r, st1⟩
  rw [hv] at h1
  cases r with
  | error e => simpa using h1
  | ok ba =>
      simp only []
      split
      · simpa using h1
      · rcases hu : updateBookAuthors id (some (bookFromCreate data).authors)
            (((st1.readDB true).findBook id).map (fun b => b.authors)) false f
            (writeOp (.replaceBook id (bookFromCreate data)) true st1) with ⟨r2, st3⟩
        have h2 := endCount_updateBookAuthors id (some (bookFromCreate data).authors)
          (((st1.readDB true).findBook id).map (fun b => b.authors)) false f
          (writeOp (.replaceBook id (bookFromCreate data)) true st1)
        rw [hu] at h2
        rw [endCount_writeOp] at h2
        cases r2 with
        | error e => simp only [hu]; rw [h2]; simpa using h1
        | ok u =>
            simp only [hu, endCount_commitTxn]
            rw [h2]
            simpa using h1

theorem endCount_updateBody (id : Id) (data : IUpdateBook) (f : Fault) (st : Exec) :
    endCount (updateBody id data f st).2.events = endCount st.events := by
  simp only [updateBody]
  cases hold : (st.readDB true).findBook id with
  | none => rfl
  | some oldDocument =>
      have h1 := endCount_validateBookAuthors data.authors true f st
      rcases hv : validateBookAuthors data.authors true f st with ⟨r, st1⟩
      rw [hv] at h1
      cases r with
      | error e => simpa using h1
      | ok ba =>
          simp only []
          split
          · simpa using h1
          · rcases hu : updateBookAuthors id (some (applyUpdate oldDocument data).authors)
                (some oldDocument.authors) true f
                (writeOp (.patchBook id data) true st1) with ⟨r2, st3⟩
            have h2 := endCount_updateBookAuthors id (some (applyUpdate oldDocument data).authors)
              (some oldDocument.authors) true f (writeOp (.patchBook id data) true st1)
            rw [hu] at h2
            rw [endCount_writeOp] at h2
            cases r2 with
            | error e => simp only [hu]; rw [h2]; simpa using h1
            | ok u =>
                simp only [hu, endCount_commitTxn]
                rw [h2]
                simpa using h1

theorem endCount_deleteBody (id : Id) (f : Fault) (st : Exec) :
    endCount (deleteBody id f st).2.events = endCount st.events := by
  simp only [deleteBody]
  cases hold : (st.readDB true).findBook id with
  | none => rfl
  | some oldDocument =>
      rcases hr : removeBookFromAuthors id (some oldDocument.authors) true f
          (writeOp (.deleteBook id) true st) with ⟨r, st2⟩
      have h1 := endCount_removeBookFromAuthors id (some oldDocument.authors) true f
        (writeOp (.deleteBook id) true st)
      rw [hr] at h1
      rw [endCount_writeOp] at h1
      cases r with
      | error e =>
          simp only [hr]
          exact h1
      | ok u =>
          simp only [hr, endCount_commitTxn]
          exact h1

theorem endCount_runWithSession {α : Type} (body : Exec → Except RepoError α × Exec)
    (hbody : ∀ st, endCount (body st).2.events = endCount st.events) (world : DB) :
    endCount (runWithSession body world).trace = 1 := by
  have h1 := hbody (initExec world)
  simp only [runWithSession]
  rcases hb : body (initExec world) with ⟨r, st⟩
  rw [hb] at h1
  have h0 : endCount (initExec world).events = 0 := rfl
  rw [h0] at h1
  cases r with
  | ok a => simp [endSessionStep, endCount_append, endCount, h1]
  | error e => simp [endSessionStep, abortTxn, endCount_append, endCount, h1]

theorem runWithSession_ok {α : Type} (body : Exec → Except RepoError α × Exec) (world : DB)
    (a : α) (st : Exec) (hb : body (initExec world) = (.ok a, st)) :
    runWithSession body world =
      { result := .ok a, world := st.world, trace := st.events ++ [.endSession] } := by
  simp [runWithSession, hb, endSessionStep]

theorem runWithSession_error {α : Type} (body : Exec → Except RepoError α × Exec) (world : DB)
    (e : RepoError) (st : Exec) (hb : body (initExec world) = (.error e, st)) :
    runWithSession body world =
      { result := .error e, world := st.world
        trace := st.events ++ [.abort, .endSession] } := by
  simp [runWithSession, hb, endSessionStep, abortTxn, adaptError]

theorem findBookAuthors_world_txn (o : Option (List Id)) (s : Bool) (f : Fault) (st : Exec) :
    (findBookAuthors o s f st).2.world = st.world ∧
    (findBookAuthors o s f st).2.txn = st.txn := by
  cases o with
  | none => exact ⟨rfl, rfl⟩
  | some ids =>
      simp only [findBookAuthors]
      split <;> exact ⟨rfl, rfl⟩

theorem validateBookAuthors_world_txn (o : Option (List Id)) (s : Bool) (f : Fault) (st : Exec) :
    (validateBookAuthors o s f st).2.world = st.world ∧
    (validateBookAuthors o s f st).2.txn = st.txn := by
  cases o with
  | none => exact ⟨rfl, rfl⟩
  | some ids =>
      simp only [validateBookAuthors]
      rcases hf : findBookAuthors (some ids) s f st with ⟨r, st1⟩
      have h1 : st1.world = st.world ∧ st1.txn = st.txn := by
        have := findBookAuthors_world_txn (some ids) s f st
        rw [hf] at this
        exact this
      cases r with
      | error e => exact h1
      | ok found =>
          simp only []
          split <;> exact h1

theorem validateBookAuthors_empty (s : Bool) (st : Exec) :
    validateBookAuthors (some []) s noFault st =
      (.ok [], { st with events := st.events ++ [.fetchAuthors [] s] }) := by
  simp [validateBookAuthors, findBookAuthors, noFault, findBookAuthorsPure]

theorem validateBookAuthors_fails (ids : List Id) (s : Bool) (st : Exec)
    (hbad : ¬ authorsOk (st.readDB s) (some ids)) :
    validateBookAuthors (some ids) s noFault st =
      (.error (.validation [("author", "Authors list contains invalid ids")]),
       { st with events := st.events ++ [.fetchAuthors ids s] }) := by
  have hcond : ids.length ≠ ids.dedup.length ∨
      ids.length ≠ ((findBookAuthorsPure (st.readDB s) ids).map (fun a => a.id)).length :=
    not_and_or.mp hbad
  simp only [validateBookAuthors, findBookAuthors, noFault]
  simp only [Bool.false_eq_true, if_false]
  rw [if_pos hcond]

/-- C1, counterexample: the claim says an author present in both the old
and the new authors list keeps the book id unchanged (not removed and
then re-added) and only old-minus-new authors are targeted by removal.
In the code, replacing the book B (authors A1, A2) with authors A2, A3
issues a bulk pull targeting the ENTIRE old list, including A2, which is
also in the new list, and then re-adds the id by the push. -/
theorem C1_counterexample :
    Event.write (WriteOp.pullBooks ["A1", "A2"] "B") false ∈
      (BookRepository.replace "B" dataC1 noFault W1).trace ∧
    "A2" ∈ (["A1", "A2"] : List Id) ∧ "A2" ∈ (["A2", "A3"] : List Id) := by decide

/-- C1, amended: the reference synchronization of replace and update is
not a minimal delta. It removes the book id from EVERY author of the old
list and then adds it to EVERY author of the new list, so an author in
both lists has the id removed and re-added. After both bulk updates an
author holds the book id exactly when it is in the new list, or was
outside the old list and already held it; old-minus-new authors lose it
and new-list authors end up holding it. -/
theorem C1_amended_delta (st : Exec) (bid : Id) (oldIds newIds : List Id) (a : Id) (A : Author)
    (h : st.world.findAuthor a = some A) :
    (updateBookAuthors bid (some newIds) (some oldIds) false noFault st).1 = .ok () ∧
    (updateBookAuthors bid (some newIds) (some oldIds) false noFault st).2.events =
      st.events ++ [.write (.pullBooks oldIds bid) false, .write (.pushBooks newIds bid) false] ∧
    (updateBookAuthors bid (some newIds) (some oldIds) false noFault st).2.world.findAuthor a =
      some (if a ∈ newIds
            then pushBookToAuthor bid (if a ∈ oldIds then pullBookFromAuthor bid A else A)
            else if a ∈ oldIds then pullBookFromAuthor bid A else A) ∧
    (bid ∈ (if a ∈ newIds
            then pushBookToAuthor bid (if a ∈ oldIds then pullBookFromAuthor bid A else A)
            else if a ∈ oldIds then pullBookFromAuthor bid A else A).books ↔
      (a ∈ newIds ∨ (a ∉ oldIds ∧ bid ∈ A.books))) := by
  have hb : updateBookAuthors bid (some newIds) (some oldIds) false noFault st =
      (.ok (), writeOp (.pushBooks newIds bid) false (writeOp (.pullBooks oldIds bid) false st)) :=
    rfl
  rw [hb]
  refine ⟨rfl, ?_, ?_, ?_⟩
  · show (st.events ++ [Event.write (.pullBooks oldIds bid) false]) ++
        [Event.write (.pushBooks newIds bid) false] = _
    simp [List.append_assoc]
  · show (applyOp (.pushBooks newIds bid) (applyOp (.pullBooks oldIds bid) st.world)).findAuthor a
        = _
    simp only [applyOp]
    rw [findAuthor_updateMany, findAuthor_updateMany, h]
    by_cases h1 : a ∈ newIds <;> by_cases h2 : a ∈ oldIds <;> simp [h1, h2]
  · by_cases h1 : a ∈ newIds <;> by_cases h2 : a ∈ oldIds <;>
      simp [h1, h2, pushBookToAuthor, pullBookFromAuthor, List.mem_filter]

/-- C1, witness for the amended theorem: the spec example, book B with
old authors A1, A2 and new authors A2, A3, observed at author A2. -/
theorem C1_amended_delta_witness :
    (updateBookAuthors "B" (some ["A2", "A3"]) (some ["A1", "A2"]) false noFault
      (initExec W1)).1 = .ok () ∧
    (updateBookAuthors "B" (some ["A2", "A3"]) (some ["A1", "A2"]) false noFault
      (initExec W1)).2.events =
      (initExec W1).events ++
        [.write (.pullBooks ["A1", "A2"] "B") false, .write (.pushBooks ["A2", "A3"] "B") false] ∧
    (updateBookAuthors "B" (some ["A2", "A3"]) (some ["A1", "A2"]) false noFault
      (initExec W1)).2.world.findAuthor "A2" =
      some (if "A2" ∈ (["A2", "A3"] : List Id)
            then pushBookToAuthor "B"
              (if "A2" ∈ (["A1", "A2"] : List Id) then pullBookFromAuthor "B" authorTwo
               else authorTwo)
            else if "A2" ∈ (["A1", "A2"] : List Id) then pullBookFromAuthor "B" authorTwo
                 else authorTwo) ∧
    ("B" ∈ (if "A2" ∈ (["A2", "A3"] : List Id)
            then pushBookToAuthor "B"
              (if "A2" ∈ (["A1", "A2"] : List Id) then pullBookFromAuthor "B" authorTwo
               else authorTwo)
            else if "A2" ∈ (["A1", "A2"] : List Id) then pullBookFromAuthor "B" authorTwo
                 else authorTwo).books ↔
      ("A2" ∈ (["A2", "A3"] : List Id) ∨
        ("A2" ∉ (["A1", "A2"] : List Id) ∧ "B" ∈ authorTwo.books))) :=
  C1_amended_delta (initExec W1) "B" ["A1", "A2"] ["A2", "A3"] "A2" authorTwo (by decide)

/-- C2, counterexample: the claim says the reference-addition step is
set-semantic and idempotent, never inserting a duplicate occurrence.
Invoking addBookToAuthors twice with the same delta on author A3 (books
initially empty) leaves the book id twice in its books array, because
the primitive is a $push, not an $addToSet. -/
theorem C2_counterexample :
    ((addBookToAuthors (some "B2") (some ["A3"]) false noFault
        (addBookToAuthors (some "B2") (some ["A3"]) false noFault (initExec W1)).2).2.world.findAuthor
        "A3").map Author.books = some ["B2", "B2"] := by decide

/-- C2, amended: the reference-addition step has list ($push) semantics,
not set semantics. Invoking it twice with the same delta appends the book
id twice to the books array of every targeted author, so the occurrence
count grows by two and duplicates arise under repeated invocation. -/
theorem C2_amended_push (st : Exec) (bid : Id) (ids : List Id) (a : Id) (A : Author)
    (h : st.world.findAuthor a = some A) (ha : a ∈ ids) :
    ((addBookToAuthors (some bid) (some ids) false noFault
        (addBookToAuthors (some bid) (some ids) false noFault st).2).2.world.findAuthor a) =
      some { A with books := (A.books ++ [bid]) ++ [bid] } ∧
    ((A.books ++ [bid]) ++ [bid]).count bid = A.books.count bid + 2 := by
  constructor
  · have e1 : (addBookToAuthors (some bid) (some ids) false noFault st).2 =
        writeOp (.pushBooks ids bid) false st := rfl
    have e2 : ∀ st2 : Exec, (addBookToAuthors (some bid) (some ids) false noFault st2).2 =
        writeOp (.pushBooks ids bid) false st2 := fun _ => rfl
    rw [e2, e1]
    show (applyOp (.pushBooks ids bid) (applyOp (.pushBooks ids bid) st.world)).findAuthor a = _
    simp only [applyOp]
    rw [findAuthor_updateMany, findAuthor_updateMany, h]
    simp [ha, pushBookToAuthor]
  · simp [List.count_append]

/-- C2, witness for the amended theorem: author A3 with an empty books
array, pushed twice with book id B2. -/
theorem C2_amended_push_witness :
    ((addBookToAuthors (some "B2") (some ["A3"]) false noFault
        (addBookToAuthors (some "B2") (some ["A3"]) false noFault (initExec W1)).2).2.world.findAuthor
        "A3") = some { authorThree with books := (authorThree.books ++ ["B2"]) ++ ["B2"] } ∧
    ((authorThree.books ++ ["B2"]) ++ ["B2"]).count "B2" = authorThree.books.count "B2" + 2 :=
  C2_amended_push (initExec W1) "B2" ["A3"] "A3" authorThree (by decide) (by decide)

/-- C3, code bug: the claim (and the spec) requires the author-side bulk
updates to run inside the same transaction-scoped session as the
book-side write. For create, update and delete the source passes the
session, but replace omits the session argument on its updateBookAuthors
call (book.ts line 90), so both bulk updates run outside the
transaction: the replace trace records them with the session flag false,
while the same author change through update records them with true. -/
theorem C3_replace_outside_session :
    Event.write (WriteOp.pullBooks ["A1", "A2"] "B") false ∈
      (BookRepository.replace "B" dataC1 noFault W1).trace ∧
    Event.write (WriteOp.pushBooks ["A2", "A3"] "B") false ∈
      (BookRepository.replace "B" dataC1 noFault W1).trace ∧
    Event.write (WriteOp.pullBooks ["A1", "A2"] "B") true ∈
      (BookRepository.update "B" updC1 noFault W1).trace ∧
    Event.write (WriteOp.pushBooks ["A2", "A3"] "B") true ∈
      (BookRepository.update "B" updC1 noFault W1).trace := by decide

/-- C4, code bug: the claim says that when reference synchronization
fails after the book write but before commit, the abort leaves no partial
mutation visible. In replace the author-side updates run outside the
session (book.ts line 90), so when the push step fails after the pull
step, the abort rolls back only the staged book write: afterwards the
book B still lists authors A1 and A2, but both have already lost the
book id from their books arrays — a visible partial mutation. -/
theorem C4_partial_mutation_after_abort :
    (BookRepository.replace "B" dataC1 { failPush := true } W1).result =
      .error (.repository "updateMany push failed") ∧
    (BookRepository.replace "B" dataC1 { failPush := true } W1).world.findBook "B" =
      some bookDune ∧
    (BookRepository.replace "B" dataC1 { failPush := true } W1).world.findAuthor "A1" =
      some { name := "One", books := [] } ∧
    (BookRepository.replace "B" dataC1 { failPush := true } W1).world.findAuthor "A2" =
      some { name := "Two", books := [] } ∧
    (BookRepository.replace "B" dataC1 { failPush := true } W1).world ≠ W1 := by decide

/-- C5, counterexample: the claim says the validation failure is keyed on
the field authors. Creating a book with the duplicated author list
A1, A1 fails with the validation error whose field-error mapping is keyed
on the singular author instead (book.ts line 175), and no record is
mutated. -/
theorem C5_counterexample :
    (BookRepository.create "B9" dataDup noFault W1).result =
      .error (.validation [("author", "Authors list contains invalid ids")]) ∧
    validationKeys (BookRepository.create "B9" dataDup noFault W1).result = ["author"] ∧
    "authors" ∉ validationKeys (BookRepository.create "B9" dataDup noFault W1).result ∧
    (BookRepository.create "B9" dataDup noFault W1).world = W1 := by decide

/-- C6, counterexample: the claim says an empty author-id list performs
no fetch. Only an absent (undefined) list short-circuits; a present but
empty list is truthy in JavaScript, so the validator still issues one
fetch of the author collection with the empty id set (and returns the
empty sequence). -/
theorem C6_counterexample :
    (validateBookAuthors (some []) true noFault (initExec W1)).2.events =
      [Event.fetchAuthors [] true] ∧
    (validateBookAuthors (some []) true noFault (initExec W1)).1 = .ok [] := by decide

/-- C6, amended: an absent author-id input makes the validator (and the
underlying finder) return the empty sequence immediately with no fetch;
an empty — but present — list also returns the empty sequence, yet it
does perform one (vacuous) fetch with the empty id set. -/
theorem C6_amended_validator (st : Exec) (s : Bool) (f : Fault) :
    validateBookAuthors none s f st = (.ok [], st) ∧
    findBookAuthors none s f st = (.ok [], st) ∧
    validateBookAuthors (some []) s noFault st =
      (.ok [], { st with events := st.events ++ [.fetchAuthors [] s] }) :=
  ⟨rfl, rfl, validateBookAuthors_empty s st⟩

/-- C5, amended: for every author-id list containing a duplicate or an id
matching no author record, create, replace and update fail with the
validation error keyed on the field author (singular, not authors as the
claim states), the committed world is unchanged, and the trace holds only
the fetch, the abort and the session release. -/
theorem C5_amended_validation (world : DB) (newId id : Id) (ids : List Id)
    (cd : ICreateBook) (ud : IUpdateBook) (doc : Book)
    (hcd : cd.authors = some ids) (hud : ud.authors = some ids)
    (hb : world.findBook id = some doc)
    (hbad : ¬ authorsOk world (some ids)) :
    BookRepository.create newId cd noFault world =
      { result := .error (.validation [("author", "Authors list contains invalid ids")])
        world := world
        trace := [.fetchAuthors ids true, .abort, .endSession] } ∧
    BookRepository.replace id cd noFault world =
      { result := .error (.validation [("author", "Authors list contains invalid ids")])
        world := world
        trace := [.fetchAuthors ids true, .abort, .endSession] } ∧
    BookRepository.update id ud noFault world =
      { result := .error (.validation [("author", "Authors list contains invalid ids")])
        world := world
        trace := [.fetchAuthors ids true, .abort, .endSession] } := by
  have hbad2 : ¬ authorsOk ((initExec world).readDB true) (some ids) := by
    rw [initExec_readDB]
    exact hbad
  have hval := validateBookAuthors_fails ids true (initExec world) hbad2
  refine ⟨?_, ?_, ?_⟩
  · have hbody : createBody newId cd noFault (initExec world) =
        (.error (.validation [("author", "Authors list contains invalid ids")]),
         { initExec world with events := [.fetchAuthors ids true] }) := by
      simp only [createBody, hcd, hval]
      rfl
    rw [show BookRepository.create newId cd noFault world =
        runWithSession (createBody newId cd noFault) world from rfl,
      runWithSession_error _ _ _ _ hbody]
    rfl
  · have hbody : replaceBody id cd noFault (initExec world) =
        (.error (.validation [("author", "Authors list contains invalid ids")]),
         { initExec world with events := [.fetchAuthors ids true] }) := by
      simp only [replaceBody, hcd, hval]
      rfl
    rw [show BookRepository.replace id cd noFault world =
        runWithSession (replaceBody id cd noFault) world from rfl,
      runWithSession_error _ _ _ _ hbody]
    rfl
  · have hbody : updateBody id ud noFault (initExec world) =
        (.error (.validation [("author", "Authors list contains invalid ids")]),
         { initExec world with events := [.fetchAuthors ids true] }) := by
      simp only [updateBody, initExec_readDB, hb, hud, hval]
      rfl
    rw [show BookRepository.update id ud noFault world =
        runWithSession (updateBody id ud noFault) world from rfl,
      runWithSession_error _ _ _ _ hbody]
    rfl

/-- C5, witness for the amended theorem: creating, replacing and updating
with the duplicated author list A1, A1 on the Dune world. -/
theorem C5_amended_validation_witness :
    BookRepository.create "B9" dataDup noFault W1 =
      { result := .error (.validation [("author", "Authors list contains invalid ids")])
        world := W1
        trace := [.fetchAuthors ["A1", "A1"] true, .abort, .endSession] } ∧
    BookRepository.replace "B" dataDup noFault W1 =
      { result := .error (.validation [("author", "Authors list contains invalid ids")])
        world := W1
        trace := [.fetchAuthors ["A1", "A1"] true, .abort, .endSession] } ∧
    BookRepository.update "B" { authors := some ["A1", "A1"] } noFault W1 =
      { result := .error (.validation [("author", "Authors list contains invalid ids")])
        world := W1
        trace := [.fetchAuthors ["A1", "A1"] true, .abort, .endSession] } :=
  C5_amended_validation W1 "B9" "B" ["A1", "A1"] dataDup { authors := some ["A1", "A1"] }
    bookDune (by decide) (by decide) (by decide) (by decide)

/-- C7: for every id matching no book, update and delete fail with the
not-found error carrying the resource name Book and the id, the
transaction aborts before any reference synchronization occurs (the
trace holds no fetch and no write, only the abort and the session
release), and the committed world is unchanged. -/
theorem C7_not_found (world : DB) (id : Id) (ud : IUpdateBook)
    (h : world.findBook id = none) :
    BookRepository.update id ud noFault world =
      { result := .error (.notFound "Book" id), world := world
        trace := [.abort, .endSession] } ∧
    BookRepository.delete id noFault world =
      { result := .error (.notFound "Book" id), world := world
        trace := [.abort, .endSession] } := by
  constructor
  · have hbody : updateBody id ud noFault (initExec world) =
        (.error (.notFound "Book" id), initExec world) := by
      simp only [updateBody, initExec_readDB, h]
    rw [show BookRepository.update id ud noFault world =
        runWithSession (updateBody id ud noFault) world from rfl,
      runWithSession_error _ _ _ _ hbody]
    rfl
  · have hbody : deleteBody id noFault (initExec world) =
        (.error (.notFound "Book" id), initExec world) := by
      simp only [deleteBody, initExec_readDB, h]
    rw [show BookRepository.delete id noFault world =
        runWithSession (deleteBody id noFault) world from rfl,
      runWithSession_error _ _ _ _ hbody]
    rfl

/-- C7, witness: updating and deleting the nonexistent book id NOPE on
the Dune world. -/
theorem C7_not_found_witness :
    BookRepository.update "NOPE" {} noFault W1 =
      { result := .error (.notFound "Book" "NOPE"), world := W1
        trace := [.abort, .endSession] } ∧
    BookRepository.delete "NOPE" noFault W1 =
      { result := .error (.notFound "Book" "NOPE"), world := W1
        trace := [.abort, .endSession] } :=
  C7_not_found W1 "NOPE" {} (by decide)

/-- C8: replace of an id matching no book succeeds by upserting: it does
not fail with the not-found error, the new document is inserted under
that id, and the resulting read book (built from the validator's cached
author summaries) is returned. -/
theorem C8_replace_upserts (world : DB) (id : Id) (data : ICreateBook)
    (cached : List BookAuthorObject) (stv : Exec)
    (h : world.findBook id = none)
    (hv : validateBookAuthors data.authors true noFault (initExec world) = (.ok cached, stv)) :
    (BookRepository.replace id data noFault world).result =
      .ok (documentToBook id (bookFromCreate data) [] (some cached)) ∧
    (BookRepository.replace id data noFault world).world.findBook id =
      some (bookFromCreate data) := by
  have hwt := validateBookAuthors_world_txn data.authors true noFault (initExec world)
  rw [hv] at hwt
  have hw : stv.world = world := hwt.1
  have ht : stv.txn = { snapshot := world, ops := [] } := hwt.2
  have hro : stv.readDB true = world := by
    simp [Exec.readDB, ht, applyOps_nil]
  have hbody : replaceBody id data noFault (initExec world) =
      (.ok (documentToBook id (bookFromCreate data) [] (some cached)),
       commitTxn (writeOp (.pushBooks (bookFromCreate data).authors id) false
         (writeOp (.replaceBook id (bookFromCreate data)) true stv))) := by
    simp only [replaceBody, hv, hro, h]
    rfl
  rw [show BookRepository.replace id data noFault world =
      runWithSession (replaceBody id data noFault) world from rfl,
    runWithSession_ok _ _ _ _ hbody]
  refine ⟨rfl, ?_⟩
  have hfw : (commitTxn (writeOp (.pushBooks (bookFromCreate data).authors id) false
      (writeOp (.replaceBook id (bookFromCreate data)) true stv))).world =
      applyOp (.replaceBook id (bookFromCreate data))
        (applyOp (.pushBooks (bookFromCreate data).authors id) world) := by
    simp [commitTxn, writeOp, applyOps, ht, hw]
  show (commitTxn (writeOp (.pushBooks (bookFromCreate data).authors id) false
      (writeOp (.replaceBook id (bookFromCreate data)) true stv))).world.findBook id = _
  rw [hfw, findBook_replace_of_none _ _ _
    (((findBook_applyOp_authorOp world id (bookFromCreate data).authors id).1).trans h)]

/-- C8, witness: replacing the absent id B2 with a payload referring to
author A3 inserts the book and returns the read model. -/
theorem C8_replace_upserts_witness :
    (BookRepository.replace "B2" { title := "Y", authors := some ["A3"] } noFault W1).result =
      .ok (documentToBook "B2" (bookFromCreate { title := "Y", authors := some ["A3"] }) []
        (some [{ id := "A3", name := "Three" }])) ∧
    (BookRepository.replace "B2" { title := "Y", authors := some ["A3"] } noFault
      W1).world.findBook "B2" =
      some (bookFromCreate { title := "Y", authors := some ["A3"] }) :=
  C8_replace_upserts W1 "B2" { title := "Y", authors := some ["A3"] }
    [{ id := "A3", name := "Three" }]
    { world := W1, txn := { snapshot := W1, ops := [] }
      events := [.fetchAuthors ["A3"] true] }
    (by decide) (by decide)

/-- C9: every mutating book operation releases its transaction-scoped
session exactly once on every exit path — for every world, every fault
schedule (success, validation failure, save failure, synchronization
failure) and every payload, the trace holds exactly one endSession
event. -/
theorem C9_session_released (world : DB) (f : Fault) (newId id : Id)
    (cd : ICreateBook) (ud : IUpdateBook) :
    endCount (BookRepository.create newId cd f world).trace = 1 ∧
    endCount (BookRepository.replace id cd f world).trace = 1 ∧
    endCount (BookRepository.update id ud f world).trace = 1 ∧
    endCount (BookRepository.delete id f world).trace = 1 :=
  ⟨endCount_runWithSession _ (endCount_createBody newId cd f) world,
   endCount_runWithSession _ (endCount_replaceBody id cd f) world,
   endCount_runWithSession _ (endCount_updateBody id ud f) world,
   endCount_runWithSession _ (endCount_deleteBody id f) world⟩

/-- C10: an update whose partial payload omits the authors field returns
a read book with an EMPTY authors sequence even though the stored
document still holds its old author references (which are preserved in
the database), because the validator's cached summary list — empty here —
is always used by documentToBook when defined; a create, a replace and an
update whose authors list is present but empty likewise return an empty
authors sequence. -/
theorem C10_cached_empty_authors (world : DB) (id newId : Id) (ud : IUpdateBook) (doc : Book)
    (cd : ICreateBook) (ud2 : IUpdateBook)
    (hb : world.findBook id = some doc) (hu : ud.authors = none) (hc : cd.authors = some [])
    (hu2 : ud2.authors = some []) :
    (BookRepository.update id ud noFault world).result =
      .ok (documentToBook id (applyUpdate doc ud) [] (some [])) ∧
    (documentToBook id (applyUpdate doc ud) [] (some [])).authors = [] ∧
    (BookRepository.update id ud noFault world).world.findBook id =
      some (applyUpdate doc ud) ∧
    (applyUpdate doc ud).authors = doc.authors ∧
    (BookRepository.create newId cd noFault world).result =
      .ok (documentToBook newId (bookFromCreate cd) [] (some [])) ∧
    (documentToBook newId (bookFromCreate cd) [] (some [])).authors = [] ∧
    (BookRepository.replace id cd noFault world).result =
      .ok (documentToBook id (bookFromCreate cd) [] (some [])) ∧
    (documentToBook id (bookFromCreate cd) [] (some [])).authors = [] ∧
    (BookRepository.update id ud2 noFault world).result =
      .ok (documentToBook id (applyUpdate doc ud2) [] (some [])) ∧
    (documentToBook id (applyUpdate doc ud2) [] (some [])).authors = [] := by
  have hbody : updateBody id ud noFault (initExec world) =
      (.ok (documentToBook id (applyUpdate doc ud) [] (some [])),
       commitTxn (writeOp (.pushBooks (applyUpdate doc ud).authors id) true
         (writeOp (.pullBooks doc.authors id) true
           (writeOp (.patchBook id ud) true (initExec world))))) := by
    simp only [updateBody, initExec_readDB, hb, hu]
    rfl
  have hbc : createBody newId cd noFault (initExec world) =
      (.ok (documentToBook newId (bookFromCreate cd) [] (some [])),
       commitTxn (writeOp (.pushBooks (bookFromCreate cd).authors newId) true
         (writeOp (.insertBook newId (bookFromCreate cd)) true
           { initExec world with events := [.fetchAuthors [] true] }))) := by
    simp only [createBody, hc, validateBookAuthors_empty]
    rfl
  have hstv : validateBookAuthors cd.authors true noFault (initExec world) =
      (.ok [], { initExec world with events := [.fetchAuthors [] true] }) := by
    rw [hc, validateBookAuthors_empty]
    rfl
  have hbr : replaceBody id cd noFault (initExec world) =
      (.ok (documentToBook id (bookFromCreate cd) [] (some [])),
       commitTxn (writeOp (.pushBooks (bookFromCreate cd).authors id) false
         (writeOp (.pullBooks doc.authors id) false
           (writeOp (.replaceBook id (bookFromCreate cd)) true
             { initExec world with events := [.fetchAuthors [] true] })))) := by
    simp only [replaceBody, hstv]
    rw [show ({ initExec world with events := [Event.fetchAuthors [] true] } : Exec).readDB true
        = world from rfl, hb]
    rfl
  have hstv2 : validateBookAuthors ud2.authors true noFault (initExec world) =
      (.ok [], { initExec world with events := [.fetchAuthors [] true] }) := by
    rw [hu2, validateBookAuthors_empty]
    rfl
  have hbu2 : updateBody id ud2 noFault (initExec world) =
      (.ok (documentToBook id (applyUpdate doc ud2) [] (some [])),
       commitTxn (writeOp (.pushBooks (applyUpdate doc ud2).authors id) true
         (writeOp (.pullBooks doc.authors id) true
           (writeOp (.patchBook id ud2) true
             { initExec world with events := [.fetchAuthors [] true] })))) := by
    simp only [updateBody, initExec_readDB, hb, hstv2]
    rfl
  refine ⟨?_, rfl, ?_, ?_, ?_, rfl, ?_, rfl, ?_, rfl⟩
  · rw [show BookRepository.update id ud noFault world =
        runWithSession (updateBody id ud noFault) world from rfl,
      runWithSession_ok _ _ _ _ hbody]
  · rw [show BookRepository.update id ud noFault world =
        runWithSession (updateBody id ud noFault) world from rfl,
      runWithSession_ok _ _ _ _ hbody]
    have hfw : (commitTxn (writeOp (.pushBooks (applyUpdate doc ud).authors id) true
        (writeOp (.pullBooks doc.authors id) true
          (writeOp (.patchBook id ud) true (initExec world))))).world =
        applyOp (.pushBooks (applyUpdate doc ud).authors id)
          (applyOp (.pullBooks doc.authors id) (applyOp (.patchBook id ud) world)) := rfl
    show (commitTxn (writeOp (.pushBooks (applyUpdate doc ud).authors id) true
        (writeOp (.pullBooks doc.authors id) true
          (writeOp (.patchBook id ud) true (initExec world))))).world.findBook id = _
    rw [hfw, (findBook_applyOp_authorOp _ id (applyUpdate doc ud).authors id).1,
      (findBook_applyOp_authorOp _ id doc.authors id).2, findBook_patch, hb]
    rfl
  · show ud.authors.getD doc.authors = doc.authors
    rw [hu]
    rfl
  · rw [show BookRepository.create newId cd noFault world =
        runWithSession (createBody newId cd noFault) world from rfl,
      runWithSession_ok _ _ _ _ hbc]
  · rw [show BookRepository.replace id cd noFault world =
        runWithSession (replaceBody id cd noFault) world from rfl,
      runWithSession_ok _ _ _ _ hbr]
  · rw [show BookRepository.update id ud2 noFault world =
        runWithSession (updateBody id ud2 noFault) world from rfl,
      runWithSession_ok _ _ _ _ hbu2]

/-- C10, witness: updating the stored book B (authors A1, A2) with the
empty partial payload, creating and replacing with an empty authors
list, and updating with an explicitly empty authors list. -/
theorem C10_cached_empty_authors_witness :
    (BookRepository.update "B" {} noFault W1).result =
      .ok (documentToBook "B" (applyUpdate bookDune {}) [] (some [])) ∧
    (documentToBook "B" (applyUpdate bookDune {}) [] (some [])).authors = [] ∧
    (BookRepository.update "B" {} noFault W1).world.findBook "B" =
      some (applyUpdate bookDune {}) ∧
    (applyUpdate bookDune {}).authors = bookDune.authors ∧
    (BookRepository.create "B7" { title := "T", authors := some [] } noFault W1).result =
      .ok (documentToBook "B7" (bookFromCreate { title := "T", authors := some [] }) []
        (some [])) ∧
    (documentToBook "B7" (bookFromCreate { title := "T", authors := some [] }) []
      (some [])).authors = [] ∧
    (BookRepository.replace "B" { title := "T", authors := some [] } noFault W1).result =
      .ok (documentToBook "B" (bookFromCreate { title := "T", authors := some [] }) []
        (some [])) ∧
    (documentToBook "B" (bookFromCreate { title := "T", authors := some [] }) []
      (some [])).authors = [] ∧
    (BookRepository.update "B" { authors := some [] } noFault W1).result =
      .ok (documentToBook "B" (applyUpdate bookDune { authors := some [] }) [] (some [])) ∧
    (documentToBook "B" (applyUpdate bookDune { authors := some [] }) []
      (some [])).authors = [] :=
  C10_cached_empty_authors W1 "B" "B7" {} bookDune { title := "T", authors := some [] }
    { authors := some [] } (by decide) (by decide) (by decide) (by decide)

end AluraBooks
